import Mathlib

/-
  Verification development for the Azure AI Foundry Genkit plugin
  (azureaifoundry_plugin.go).  The translation layer between the
  provider-agnostic Genkit data model and the chat-completion wire
  protocol is embedded shallowly: the Go functions convertResponse,
  generateTextStream, convertToolCallsToParts, convertFinishReason and
  convertMessagesToOpenAI become Lean functions over explicit types.
  JSON serialization (encoding/json, an external library) is abstracted
  as function parameters `parse` (json.Unmarshal into a structured
  value) and `marshal` (json.Marshal of a structured value); every
  claim quantifies over these parameters, and concrete witnesses
  instantiate them with small exact-match table functions.
-/

namespace AzureAIFoundry

/-- Structured JSON-like value, the image of json.Unmarshal into
map[string]interface\x7b\x7d (and the domain of json.Marshal). -/
inductive JsonValue where
  | null : JsonValue
  | bool (b : Bool) : JsonValue
  | num (n : Int) : JsonValue
  | str (s : String) : JsonValue
  | arr (elems : List JsonValue) : JsonValue
  | obj (fields : List (String × JsonValue)) : JsonValue

/-- Message role, mirroring ai.RoleSystem / RoleUser / RoleModel / RoleTool. -/
inductive Role where
  | system
  | user
  | model
  | tool
deriving DecidableEq

/-- Content part, mirroring genkit's ai.Part tagged union.  A tool-request
input of `none` corresponds to a nil map in Go (the streaming path leaves
args nil when the accumulated argument buffer is empty). -/
inductive Part where
  | text (t : String) : Part
  | media (contentType : String) (url : String) : Part
  | toolRequest (name : String) (input : Option JsonValue) : Part
  | toolResponse (name : String) (output : Option JsonValue) : Part

/-- The Text field of an ai.Part struct: genkit stores a text part's text
and a media part's URL in the Text field; tool parts leave it empty.
convertMessagesToOpenAI reads msg.Content[0].Text through this accessor. -/
def Part.textField : Part → String
  | .text t => t
  | .media _ url => url
  | .toolRequest _ _ => ""
  | .toolResponse _ _ => ""

/-- Whether the part is a text part (ai.Part.IsText). -/
def Part.isTextPart : Part → Bool
  | .text _ => true
  | _ => false

/-- Genkit message: a role and an ordered part sequence. -/
structure Message where
  role : Role
  content : List Part

/-- Genkit finish reason (closed enum). -/
inductive FinishReason where
  | stop
  | length
  | blocked
  | other
  | unknown
deriving DecidableEq

/-- Token usage counters (ai.GenerationUsage). -/
structure GenerationUsage where
  inputTokens : Int
  outputTokens : Int
  totalTokens : Int
deriving DecidableEq

/-- Genkit model response.  The usage field is `Option` because
ai.ModelResponse.Usage is a pointer: the streaming path leaves it nil. -/
structure ModelResponse where
  message : Message
  finishReason : FinishReason
  usage : Option GenerationUsage

/-- Reading of the usage pointer: a nil (absent) usage reads as all-zero
counters, matching the data model's "zero-valued when absent". -/
def usageCounters : Option GenerationUsage → GenerationUsage
  | none => ⟨0, 0, 0⟩
  | some u => u

/- ---------------------------------------------------------------------
   Synchronous wire response (openai.ChatCompletion) and convertResponse
   --------------------------------------------------------------------- -/

/-- A function-type tool call of a wire message, as seen through
toolCall.AsFunction(): a non-function union variant projects to an empty
ID, which is exactly the guard convertResponse uses. -/
structure WireFunctionCall where
  id : String
  name : String
  arguments : String

/-- Wire choice message: text content plus tool calls. -/
structure WireChoiceMessage where
  content : String
  toolCalls : List WireFunctionCall

/-- Wire choice: message plus provider finish-reason string. -/
structure WireChoice where
  message : WireChoiceMessage
  finishReason : String

/-- Wire usage block (prompt / completion / total token counts). -/
structure WireUsage where
  promptTokens : Int
  completionTokens : Int
  totalTokens : Int

/-- Complete (non-streaming) wire response. -/
structure ChatCompletion where
  choices : List WireChoice
  usage : WireUsage

/-- convertFinishReason from azureaifoundry_plugin.go: the switch mapping
provider finish-reason strings to Genkit finish reasons. -/
def convertFinishReason (reason : String) : FinishReason :=
  if reason = "stop" then .stop
  else if reason = "length" then .length
  else if reason = "content_filter" then .blocked
  else if reason = "tool_calls" ∨ reason = "function_call" then .stop
  else .other

/-- The tool-call loop of convertResponse: a function call with empty ID is
skipped, a call whose argument string fails to parse is skipped silently,
every other call becomes a ToolRequest part. -/
def convertResponseToolParts (parse : String → Option JsonValue) :
    List WireFunctionCall → List Part
  | [] => []
  | tc :: rest =>
    if tc.id = "" then convertResponseToolParts parse rest
    else
      match parse tc.arguments with
      | none => convertResponseToolParts parse rest
      | some args => Part.toolRequest tc.name (some args) :: convertResponseToolParts parse rest

/-- convertResponse from azureaifoundry_plugin.go: converts a complete wire
response into a ModelResponse.  It is total (the Go function returns no
error). -/
def convertResponse (parse : String → Option JsonValue) (resp : ChatCompletion) :
    ModelResponse :=
  match resp.choices with
  | [] =>
    { message := ⟨.model, []⟩, finishReason := .unknown, usage := none }
  | choice :: _ =>
    let textParts : List Part :=
      if choice.message.content = "" then [] else [Part.text choice.message.content]
    let content := textParts ++ convertResponseToolParts parse choice.message.toolCalls
    let usage : GenerationUsage :=
      if resp.usage.promptTokens > 0 then
        ⟨resp.usage.promptTokens, resp.usage.completionTokens, resp.usage.totalTokens⟩
      else ⟨0, 0, 0⟩
    { message := ⟨.model, content⟩
      finishReason := convertFinishReason choice.finishReason
      usage := some usage }

/- ---------------------------------------------------------------------
   Streaming: delta chunks, the accumulator map, generateTextStream
   --------------------------------------------------------------------- -/

/-- Function payload of a streaming tool-call delta. -/
structure ToolCallDeltaFunction where
  name : String
  arguments : String

/-- Streaming tool-call fragment, keyed by its integer index. -/
structure ToolCallDelta where
  index : Int
  id : String
  function : ToolCallDeltaFunction

/-- One streaming delta: text content plus tool-call fragments. -/
structure StreamDelta where
  content : String
  toolCalls : List ToolCallDelta

/-- One streaming chunk; generateTextStream only looks at Choices[0].Delta
when the choice list is non-empty. -/
structure StreamChunk where
  choices : List StreamDelta

/-- toolCallAccumulator from azureaifoundry_plugin.go: id, name and the
strings.Builder argument buffer, as plain strings. -/
structure ToolCallAccumulator where
  id : String
  name : String
  arguments : String

/-- Lookup in the accumulator map (Go map[int]*toolCallAccumulator),
modelled as an association list keyed by the integer index. -/
def mapLookup (m : List (Int × ToolCallAccumulator)) (k : Int) :
    Option ToolCallAccumulator :=
  match m with
  | [] => none
  | (k2, v) :: rest => if k = k2 then some v else mapLookup rest k

/-- Store a value at a key: replace in place when present, append when
absent. -/
def mapSet (m : List (Int × ToolCallAccumulator)) (k : Int)
    (v : ToolCallAccumulator) : List (Int × ToolCallAccumulator) :=
  match m with
  | [] => [(k, v)]
  | (k2, v2) :: rest =>
    if k = k2 then (k, v) :: rest else (k2, v2) :: mapSet rest k v

/-- Processing of one tool-call fragment by the streaming loop: lazily
create the accumulator at the fragment's index (capturing the fragment's
id), overwrite the name when the fragment carries a non-empty one, and
append non-empty argument text to the buffer. -/
def applyToolCallDelta (m : List (Int × ToolCallAccumulator))
    (tc : ToolCallDelta) : List (Int × ToolCallAccumulator) :=
  let acc0 : ToolCallAccumulator :=
    match mapLookup m tc.index with
    | none => ⟨tc.id, "", ""⟩
    | some a => a
  let acc1 := if tc.function.name = "" then acc0 else { acc0 with name := tc.function.name }
  let acc2 :=
    if tc.function.arguments = "" then acc1
    else { acc1 with arguments := acc1.arguments ++ tc.function.arguments }
  mapSet m tc.index acc2

/-- Errors generateTextStream can return (each constructor mirrors one
fmt.Errorf site). -/
inductive GenError where
  | streamingCallback (msg : String) : GenError
  | streamError (msg : String) : GenError
  | unmarshalToolArguments (toolName : String) : GenError
  | convertToolCallsFailed (inner : GenError) : GenError

/-- Chunk handed to the sink callback (ai.ModelResponseChunk): the
streaming loop always passes exactly one text part. -/
structure ModelResponseChunk where
  content : List Part

/-- Processing of one delta by the streaming loop body: append non-empty
text to the running buffer and forward it to the sink (a sink error aborts
immediately, before the delta's tool-call fragments are touched), then
fold the delta's tool-call fragments into the accumulator map. -/
def processDelta (cb : Option (ModelResponseChunk → Option String))
    (delta : StreamDelta) (text : String)
    (m : List (Int × ToolCallAccumulator)) :
    Except GenError (String × List (Int × ToolCallAccumulator)) :=
  if delta.content = "" then
    .ok (text, delta.toolCalls.foldl applyToolCallDelta m)
  else
    match cb with
    | none => .ok (text ++ delta.content, delta.toolCalls.foldl applyToolCallDelta m)
    | some f =>
      match f ⟨[Part.text delta.content]⟩ with
      | some e => .error (.streamingCallback e)
      | none => .ok (text ++ delta.content, delta.toolCalls.foldl applyToolCallDelta m)

/-- The stream.Next() loop of generateTextStream: chunks are consumed in
order, a chunk with no choices contributes nothing, and a sink error stops
consumption on the spot. -/
def runDeltas (cb : Option (ModelResponseChunk → Option String)) :
    List StreamChunk → String → List (Int × ToolCallAccumulator) →
    Except GenError (String × List (Int × ToolCallAccumulator))
  | [], text, m => .ok (text, m)
  | c :: rest, text, m =>
    match c.choices with
    | [] => runDeltas cb rest text m
    | d :: _ =>
      match processDelta cb d text m with
      | .error e => .error e
      | .ok (t, m2) => runDeltas cb rest t m2

/-- convertToolCallsToParts from azureaifoundry_plugin.go: accumulators
without a name are skipped, an empty argument buffer yields a nil input,
and a buffer that fails to parse makes the whole conversion fail. -/
def convertToolCallsToParts (parse : String → Option JsonValue) :
    List (Int × ToolCallAccumulator) → Except GenError (List Part)
  | [] => .ok []
  | (_, tc) :: rest =>
    if tc.name = "" then convertToolCallsToParts parse rest
    else if tc.arguments = "" then
      match convertToolCallsToParts parse rest with
      | .error e => .error e
      | .ok parts => .ok (Part.toolRequest tc.name none :: parts)
    else
      match parse tc.arguments with
      | none => .error (.unmarshalToolArguments tc.name)
      | some args =>
        match convertToolCallsToParts parse rest with
        | .error e => .error e
        | .ok parts => .ok (Part.toolRequest tc.name (some args) :: parts)

/-- The transport's view of one streaming call: the chunks stream.Next()
delivers, then the terminal stream.Err() value. -/
structure StreamTransport where
  chunks : List StreamChunk
  err : Option String

/-- generateTextStream from azureaifoundry_plugin.go: run the delta loop,
surface the transport error, emit a text part only for a non-empty buffer,
convert the accumulated tool calls (any parse failure is fatal), and
finish with FinishReason stop and no usage. -/
def generateTextStream (parse : String → Option JsonValue)
    (cb : Option (ModelResponseChunk → Option String))
    (st : StreamTransport) : Except GenError ModelResponse :=
  match runDeltas cb st.chunks "" [] with
  | .error e => .error e
  | .ok (text, m) =>
    match st.err with
    | some e => .error (.streamError e)
    | none =>
      let content : List Part := if text = "" then [] else [Part.text text]
      match convertToolCallsToParts parse m with
      | .error e => .error (.convertToolCallsFailed e)
      | .ok toolParts =>
        .ok ⟨⟨.model, content ++ toolParts⟩, .stop, none⟩

/- ---------------------------------------------------------------------
   Message translation: convertMessagesToOpenAI
   --------------------------------------------------------------------- -/

/-- A wire tool-call record on an assistant message. -/
structure WireToolCallParam where
  id : String
  name : String
  arguments : String

/-- Wire message union (openai.ChatCompletionMessageParamUnion). -/
inductive WireMessageParam where
  | system (content : String) : WireMessageParam
  | user (content : String) : WireMessageParam
  | assistant (content : String) (toolCalls : List WireToolCallParam) : WireMessageParam
  | tool (content : String) (toolCallID : String) : WireMessageParam

/-- Concatenation of the Text of every text part, in order (the assistant
branch's textContent accumulation). -/
def concatTextParts : List Part → String
  | [] => ""
  | .text s :: rest => s ++ concatTextParts rest
  | _ :: rest => concatTextParts rest

/-- Tool-call records collected from a model message's ToolRequest parts:
a request whose input fails to marshal is dropped; the correlation id is
synthesized as "call_" ++ name. -/
def assistantToolCalls (marshal : Option JsonValue → Option String) :
    List Part → List WireToolCallParam
  | [] => []
  | .toolRequest name input :: rest =>
    (match marshal input with
     | none => assistantToolCalls marshal rest
     | some s => ⟨"call_" ++ name, name, s⟩ :: assistantToolCalls marshal rest)
  | _ :: rest => assistantToolCalls marshal rest

/-- Wire messages emitted for a tool-role message: one per ToolResponse
part whose output marshals, with the same synthesized correlation id. -/
def toolResponseMessages (marshal : Option JsonValue → Option String) :
    List Part → List WireMessageParam
  | [] => []
  | .toolResponse name output :: rest =>
    (match marshal output with
     | none => toolResponseMessages marshal rest
     | some s => .tool s ("call_" ++ name) :: toolResponseMessages marshal rest)
  | _ :: rest => toolResponseMessages marshal rest

/-- One iteration of the convertMessagesToOpenAI loop: wire messages
emitted for a single Genkit message.  A message with no parts is skipped;
system and user messages take Content[0].Text; a model message always
yields exactly one assistant message; a tool message yields one wire
message per marshallable ToolResponse part. -/
def convertMessage (marshal : Option JsonValue → Option String)
    (msg : Message) : List WireMessageParam :=
  match msg.content with
  | [] => []
  | p :: _ =>
    match msg.role with
    | .system => [.system p.textField]
    | .user => [.user p.textField]
    | .model => [.assistant (concatTextParts msg.content) (assistantToolCalls marshal msg.content)]
    | .tool => toolResponseMessages marshal msg.content

/-- convertMessagesToOpenAI from azureaifoundry_plugin.go: the per-message
emissions concatenated in input order. -/
def convertMessagesToOpenAI (marshal : Option JsonValue → Option String) :
    List Message → List WireMessageParam
  | [] => []
  | msg :: rest => convertMessage marshal msg ++ convertMessagesToOpenAI marshal rest

/-- Count of messages with a non-empty part sequence (the quantity the
spec's length property refers to). -/
def countNonEmptyMessages : List Message → Nat
  | [] => 0
  | msg :: rest => (if msg.content.isEmpty then 0 else 1) + countNonEmptyMessages rest

/-- Content of the first Text part of a part list, following the spec's
words ("first Text part's content"); compared in C8 against the Text field
of the first part, which is what the code actually reads. -/
def specFirstTextContent : List Part → String
  | [] => ""
  | .text t :: _ => t
  | _ :: rest => specFirstTextContent rest

/-- Concrete JSON parse table used to instantiate the abstract parse
parameter in witnesses: it recognizes the two JSON texts of the
interleaving example and rejects everything else. -/
def parseDemo (s : String) : Option JsonValue :=
  if s = "\x7b\"a\":1\x7d" then some (.obj [("a", .num 1)])
  else if s = "\x7b\x7d" then some (.obj [])
  else none

/- ---------------------------------------------------------------------
   Helper lemmas on the accumulator map
   --------------------------------------------------------------------- -/

theorem mapLookup_mapSet_self (m : List (Int × ToolCallAccumulator)) (k : Int)
    (v : ToolCallAccumulator) : mapLookup (mapSet m k v) k = some v := by
  induction m with
  | nil => simp [mapSet, mapLookup]
  | cons hd tl ih =>
    obtain ⟨k2, v2⟩ := hd
    by_cases h : k = k2 <;> simp [mapSet, mapLookup, h, ih]

theorem mapLookup_mapSet_ne (m : List (Int × ToolCallAccumulator)) (k j : Int)
    (v : ToolCallAccumulator) (h : j ≠ k) :
    mapLookup (mapSet m k v) j = mapLookup m j := by
  induction m with
  | nil => simp [mapSet, mapLookup, h]
  | cons hd tl ih =>
    obtain ⟨k2, v2⟩ := hd
    by_cases hk : k = k2
    · subst hk
      simp [mapSet, mapLookup, h]
    · by_cases hj : j = k2 <;> simp [mapSet, mapLookup, hk, hj, ih]

theorem applyToolCallDelta_other (m : List (Int × ToolCallAccumulator))
    (tc : ToolCallDelta) (j : Int) (h : j ≠ tc.index) :
    mapLookup (applyToolCallDelta m tc) j = mapLookup m j := by
  unfold applyToolCallDelta
  exact mapLookup_mapSet_ne _ _ _ _ h

theorem applyToolCallDelta_lookup_self (m : List (Int × ToolCallAccumulator))
    (tc : ToolCallDelta) (acc : ToolCallAccumulator)
    (h : mapLookup m tc.index = some acc) :
    mapLookup (applyToolCallDelta m tc) tc.index =
      some ⟨acc.id,
            if tc.function.name = "" then acc.name else tc.function.name,
            if tc.function.arguments = "" then acc.arguments
            else acc.arguments ++ tc.function.arguments⟩ := by
  unfold applyToolCallDelta
  rw [h]
  by_cases hn : tc.function.name = "" <;> by_cases ha : tc.function.arguments = "" <;>
    simp [hn, ha, mapLookup_mapSet_self]

theorem foldl_applyToolCallDelta_name_nonempty (tcs : List ToolCallDelta)
    (m : List (Int × ToolCallAccumulator)) (idx : Int) (acc : ToolCallAccumulator)
    (h : mapLookup m idx = some acc) (hne : acc.name ≠ "") :
    ∃ acc', mapLookup (tcs.foldl applyToolCallDelta m) idx = some acc' ∧
      acc'.name ≠ "" := by
  induction tcs generalizing m acc with
  | nil => exact ⟨acc, h, hne⟩
  | cons tc rest ih =>
    rw [List.foldl_cons]
    by_cases hidx : idx = tc.index
    · subst hidx
      have hstep := applyToolCallDelta_lookup_self m tc acc h
      by_cases hn : tc.function.name = ""
      · exact ih _ _ hstep (by simpa [hn] using hne)
      · exact ih _ _ hstep (by simp [hn])
    · exact ih _ _ (by rw [applyToolCallDelta_other m tc idx hidx]; exact h) hne

/- ---------------------------------------------------------------------
   Claim theorems
   --------------------------------------------------------------------- -/

/-- C5: convertFinishReason is a pure total function satisfying exactly
this mapping: "stop" to stop, "length" to length, "content_filter" to
blocked, "tool_calls" and "function_call" to stop, every other string to
other; it never returns unknown. -/
theorem c5_finish_reason_mapping :
    convertFinishReason "stop" = .stop ∧
    convertFinishReason "length" = .length ∧
    convertFinishReason "content_filter" = .blocked ∧
    convertFinishReason "tool_calls" = .stop ∧
    convertFinishReason "function_call" = .stop ∧
    (∀ s : String, s ≠ "stop" → s ≠ "length" → s ≠ "content_filter" →
      s ≠ "tool_calls" → s ≠ "function_call" → convertFinishReason s = .other) ∧
    (∀ s : String, convertFinishReason s ≠ .unknown) := by
  refine ⟨rfl, rfl, rfl, rfl, rfl, ?_, ?_⟩
  · intro s h1 h2 h3 h4 h5
    simp [convertFinishReason, h1, h2, h3, h4, h5]
  · intro s
    unfold convertFinishReason
    split_ifs <;> simp

/-- Witness for C5 at the concrete input "banana". -/
theorem c5_finish_reason_mapping_witness :
    convertFinishReason "banana" = .other ∧ convertFinishReason "banana" ≠ .unknown :=
  ⟨c5_finish_reason_mapping.2.2.2.2.2.1 "banana"
      (by decide) (by decide) (by decide) (by decide) (by decide),
   c5_finish_reason_mapping.2.2.2.2.2.2 "banana"⟩

/-- C6: for every wire response with zero choices, convertResponse
returns, without error (the function is total), a ModelResponse whose
message has role model and an empty part sequence and whose FinishReason
is unknown (its usage pointer is nil, reading as all-zero counters). -/
theorem c6_zero_choices (parse : String → Option JsonValue)
    (resp : ChatCompletion) (h : resp.choices = []) :
    convertResponse parse resp = ⟨⟨.model, []⟩, .unknown, none⟩ := by
  unfold convertResponse
  rw [h]

/-- Witness for C6 at a concrete zero-choice response. -/
theorem c6_zero_choices_witness :
    convertResponse parseDemo ⟨[], ⟨3, 4, 7⟩⟩ = ⟨⟨.model, []⟩, .unknown, none⟩ :=
  c6_zero_choices parseDemo ⟨[], ⟨3, 4, 7⟩⟩ rfl

/-- C9: for every delta sequence that ends without a transport error, a
sink error, or an argument-parse error (that is, whenever
generateTextStream returns a response at all), the returned ModelResponse
has FinishReason stop and all-zero usage counters (the usage pointer is
left nil). -/
theorem c9_stream_finish_and_usage (parse : String → Option JsonValue)
    (cb : Option (ModelResponseChunk → Option String)) (st : StreamTransport)
    (r : ModelResponse) (h : generateTextStream parse cb st = .ok r) :
    r.finishReason = .stop ∧ r.usage = none ∧ usageCounters r.usage = ⟨0, 0, 0⟩ := by
  unfold generateTextStream at h
  split at h
  · exact absurd h (by simp)
  · split at h
    · exact absurd h (by simp)
    · split at h
      · split at h
        · exact absurd h (by simp)
        · cases h
          exact ⟨rfl, rfl, rfl⟩
      · split at h
        · exact absurd h (by simp)
        · cases h
          exact ⟨rfl, rfl, rfl⟩

/-- Witness for C9 at a concrete two-chunk text-only stream. -/
theorem c9_stream_finish_and_usage_witness :
    (⟨⟨.model, [Part.text "Hello"]⟩, .stop, none⟩ : ModelResponse).finishReason = .stop ∧
    (⟨⟨.model, [Part.text "Hello"]⟩, .stop, none⟩ : ModelResponse).usage = none ∧
    usageCounters (⟨⟨.model, [Part.text "Hello"]⟩, .stop, none⟩ : ModelResponse).usage =
      ⟨0, 0, 0⟩ :=
  c9_stream_finish_and_usage parseDemo none
    ⟨[⟨[⟨"He", []⟩]⟩, ⟨[⟨"llo", []⟩]⟩], none⟩ _ rfl

/-- C10: usage counters are copied from the wire response only when the
prompt-token count is strictly positive; whenever that count is zero or
negative the returned usage reads as all-zero, even if completion or
total counts are positive; and for a response with at least one choice
and a positive prompt count all three counters are copied through. -/
theorem c10_usage_copy (parse : String → Option JsonValue) (resp : ChatCompletion) :
    (resp.usage.promptTokens ≤ 0 →
      usageCounters (convertResponse parse resp).usage = ⟨0, 0, 0⟩) ∧
    (resp.choices ≠ [] → 0 < resp.usage.promptTokens →
      (convertResponse parse resp).usage =
        some ⟨resp.usage.promptTokens, resp.usage.completionTokens,
              resp.usage.totalTokens⟩) := by
  constructor
  · intro hle
    unfold convertResponse
    cases hc : resp.choices with
    | nil => rfl
    | cons choice rest =>
      have hng : ¬ resp.usage.promptTokens > 0 := by omega
      simp [hng, usageCounters]
  · intro hne hpos
    unfold convertResponse
    cases hc : resp.choices with
    | nil => exact absurd hc hne
    | cons choice rest => simp [hpos]

/-- Witness for C10: a zero-prompt response with positive completion and
total counts reads as all-zero usage, and a five-prompt response copies
all three counters. -/
theorem c10_usage_copy_witness :
    usageCounters
        (convertResponse parseDemo ⟨[⟨⟨"hi", []⟩, "stop"⟩], ⟨0, 3, 3⟩⟩).usage =
      ⟨0, 0, 0⟩ ∧
    (convertResponse parseDemo ⟨[⟨⟨"hi", []⟩, "stop"⟩], ⟨5, 7, 12⟩⟩).usage =
      some ⟨5, 7, 12⟩ :=
  ⟨(c10_usage_copy parseDemo ⟨[⟨⟨"hi", []⟩, "stop"⟩], ⟨0, 3, 3⟩⟩).1 (by decide),
   (c10_usage_copy parseDemo ⟨[⟨⟨"hi", []⟩, "stop"⟩], ⟨5, 7, 12⟩⟩).2
      (by exact List.cons_ne_nil _ _) (by decide)⟩

/-- C2: tool-call fragments are accumulated per integer index, so
fragments at different indices never touch each other's buffers
(applying a fragment leaves every other index's entry unchanged), and
the concrete interleaved sequence — index 0 (name "foo", args the open
brace of \x7b"a":1), then index 1 (name "bar", args "\x7b\x7d"), then
index 0 (args the closing brace) — assembles exactly the two ToolRequest
parts foo with input \x7b a: 1 \x7d and bar with empty-object input. -/
theorem c2_fragment_interleaving :
    (∀ (m : List (Int × ToolCallAccumulator)) (tc : ToolCallDelta) (j : Int),
        j ≠ tc.index →
        mapLookup (applyToolCallDelta m tc) j = mapLookup m j) ∧
    generateTextStream parseDemo none
        ⟨[⟨[⟨"", [⟨0, "id0", ⟨"foo", "\x7b\"a\":1"⟩⟩]⟩]⟩,
          ⟨[⟨"", [⟨1, "id1", ⟨"bar", "\x7b\x7d"⟩⟩]⟩]⟩,
          ⟨[⟨"", [⟨0, "", ⟨"", "\x7d"⟩⟩]⟩]⟩], none⟩ =
      .ok ⟨⟨.model,
            [Part.toolRequest "foo" (some (.obj [("a", .num 1)])),
             Part.toolRequest "bar" (some (.obj []))]⟩, .stop, none⟩ :=
  ⟨fun m tc j h => applyToolCallDelta_other m tc j h, rfl⟩

/-- Witness for C2: applying a fragment at index 0 leaves the entry at
index 1 untouched. -/
theorem c2_fragment_interleaving_witness :
    mapLookup
        (applyToolCallDelta [((1 : Int), ⟨"id1", "bar", "\x7b"⟩)]
          ⟨0, "id0", ⟨"foo", "xyz"⟩⟩) 1 =
      mapLookup [((1 : Int), ⟨"id1", "bar", "\x7b"⟩)] 1 :=
  c2_fragment_interleaving.1 _ _ _ (by decide)

/-- C4 counterexample: a fragment at index 0 first sets the stored name
to "foo"; a later fragment at the same index carrying the non-empty name
"baz" overwrites it, so a name already set to a non-empty value is not
preserved. -/
theorem c4_name_overwrite_counterexample :
    mapLookup [((0 : Int), ⟨"id0", "foo", ""⟩)] 0 = some ⟨"id0", "foo", ""⟩ ∧
    ("foo" : String) ≠ "" ∧
    mapLookup
        (applyToolCallDelta [((0 : Int), ⟨"id0", "foo", ""⟩)]
          ⟨0, "", ⟨"baz", ""⟩⟩) 0 =
      some ⟨"id0", "baz", ""⟩ ∧
    ("baz" : String) ≠ "foo" :=
  ⟨rfl, by decide, rfl, by decide⟩

/-- C4 (amended): processing a fragment rewrites the accumulator at the
fragment's own index exactly as the code does — the id is kept, the name
is overwritten precisely when the fragment carries a non-empty name (and
kept otherwise), and non-empty argument text is appended — and hence a
name, once set to a non-empty value, can later be replaced by another
non-empty name but is never reset to empty by any sequence of
fragments. -/
theorem c4_name_accumulation :
    (∀ (m : List (Int × ToolCallAccumulator)) (tc : ToolCallDelta)
        (acc : ToolCallAccumulator),
        mapLookup m tc.index = some acc →
        mapLookup (applyToolCallDelta m tc) tc.index =
          some ⟨acc.id,
                if tc.function.name = "" then acc.name else tc.function.name,
                if tc.function.arguments = "" then acc.arguments
                else acc.arguments ++ tc.function.arguments⟩) ∧
    (∀ (tcs : List ToolCallDelta) (m : List (Int × ToolCallAccumulator))
        (idx : Int) (acc : ToolCallAccumulator),
        mapLookup m idx = some acc → acc.name ≠ "" →
        ∃ acc', mapLookup (tcs.foldl applyToolCallDelta m) idx = some acc' ∧
          acc'.name ≠ "") :=
  ⟨applyToolCallDelta_lookup_self, foldl_applyToolCallDelta_name_nonempty⟩

/-- Witness for C4 (amended): a name-less fragment at index 0 keeps the
stored name "foo" while appending to the buffer, and after a further
name-carrying fragment the stored name is still non-empty. -/
theorem c4_name_accumulation_witness :
    mapLookup
        (applyToolCallDelta [((0 : Int), ⟨"id0", "foo", "ab"⟩)]
          ⟨0, "", ⟨"", "cd"⟩⟩) 0 =
      some ⟨"id0", "foo", "abcd"⟩ ∧
    ∃ acc',
      mapLookup
          ([(⟨(0 : Int), "", ⟨"baz", ""⟩⟩ : ToolCallDelta)].foldl applyToolCallDelta
            [((0 : Int), ⟨"id0", "foo", "ab"⟩)]) 0 =
        some acc' ∧ acc'.name ≠ "" :=
  ⟨c4_name_accumulation.1 [((0 : Int), ⟨"id0", "foo", "ab"⟩)] ⟨0, "", ⟨"", "cd"⟩⟩
      ⟨"id0", "foo", "ab"⟩ rfl,
   c4_name_accumulation.2 [⟨0, "", ⟨"baz", ""⟩⟩] [((0 : Int), ⟨"id0", "foo", "ab"⟩)]
      0 ⟨"id0", "foo", "ab"⟩ rfl (by decide)⟩

theorem convertResponseToolParts_eq_filterMap (parse : String → Option JsonValue)
    (l : List WireFunctionCall) :
    convertResponseToolParts parse l =
      l.filterMap (fun tc =>
        if tc.id = "" then none
        else (parse tc.arguments).map (fun a => Part.toolRequest tc.name (some a))) := by
  induction l with
  | nil => rfl
  | cons tc rest ih =>
    unfold convertResponseToolParts
    by_cases h : tc.id = ""
    · simp [h, ih, List.filterMap_cons]
    · cases hp : parse tc.arguments <;> simp [h, hp, ih, List.filterMap_cons]

theorem convertToolCallsToParts_error_of_mem (parse : String → Option JsonValue)
    (m : List (Int × ToolCallAccumulator)) (k : Int) (tc : ToolCallAccumulator)
    (hmem : (k, tc) ∈ m) (hname : tc.name ≠ "") (hargs : tc.arguments ≠ "")
    (hparse : parse tc.arguments = none) :
    ∃ e, convertToolCallsToParts parse m = .error e := by
  induction m with
  | nil => cases hmem
  | cons hd rest ih =>
    obtain ⟨k2, tc2⟩ := hd
    rcases List.mem_cons.mp hmem with heq | hmem2
    · obtain ⟨hk, htc⟩ := Prod.mk.injEq .. ▸ heq
      subst htc
      exact ⟨.unmarshalToolArguments tc.name,
        by unfold convertToolCallsToParts; simp [hname, hargs, hparse]⟩
    · unfold convertToolCallsToParts
      by_cases hn2 : tc2.name = ""
      · simpa [hn2] using ih hmem2
      · by_cases ha2 : tc2.arguments = ""
        · obtain ⟨e, he⟩ := ih hmem2
          exact ⟨e, by simp [hn2, ha2, he]⟩
        · cases hp2 : parse tc2.arguments with
          | none => exact ⟨.unmarshalToolArguments tc2.name, by simp [hn2, ha2, hp2]⟩
          | some args =>
            obtain ⟨e, he⟩ := ih hmem2
            exact ⟨e, by simp [hn2, ha2, hp2, he]⟩

/-- C1: tool-argument decode failure is handled asymmetrically.  In the
synchronous path, convertResponse keeps the text part and exactly those
function tool calls with a non-empty id whose argument string parses —
a failing call is dropped silently while everything else is still
returned.  In the streaming path, if any accumulated fragment with a
non-empty name has a non-empty argument buffer that fails to parse, the
whole generateTextStream call returns an error and no ModelResponse. -/
theorem c1_decode_failure_asymmetry :
    (∀ (parse : String → Option JsonValue) (resp : ChatCompletion)
        (choice : WireChoice) (rest : List WireChoice),
        resp.choices = choice :: rest →
        (convertResponse parse resp).message.content =
          (if choice.message.content = "" then []
           else [Part.text choice.message.content]) ++
          choice.message.toolCalls.filterMap (fun tc =>
            if tc.id = "" then none
            else (parse tc.arguments).map
              (fun a => Part.toolRequest tc.name (some a)))) ∧
    (∀ (parse : String → Option JsonValue)
        (cb : Option (ModelResponseChunk → Option String)) (st : StreamTransport)
        (text : String) (m : List (Int × ToolCallAccumulator))
        (k : Int) (tc : ToolCallAccumulator),
        runDeltas cb st.chunks "" [] = .ok (text, m) →
        st.err = none →
        (k, tc) ∈ m → tc.name ≠ "" → tc.arguments ≠ "" →
        parse tc.arguments = none →
        ∃ e, generateTextStream parse cb st = .error e) := by
  constructor
  · intro parse resp choice rest h
    unfold convertResponse
    rw [h]
    simp [convertResponseToolParts_eq_filterMap]
  · intro parse cb st text m k tc hrun herr hmem hname hargs hparse
    obtain ⟨e, he⟩ := convertToolCallsToParts_error_of_mem parse m k tc hmem hname hargs hparse
    refine ⟨.convertToolCallsFailed e, ?_⟩
    unfold generateTextStream
    rw [hrun, herr]
    simp [he]

/-- Witness for C1: with the parse table parseDemo, a synchronous
response holding one malformed call ("oops") and one good call keeps the
text and the good call only, while a stream that accumulated the same
malformed buffer fails as a whole. -/
theorem c1_decode_failure_asymmetry_witness :
    (convertResponse parseDemo
        ⟨[⟨⟨"hi", [⟨"call_foo", "foo", "oops"⟩, ⟨"call_bar", "bar", "\x7b\x7d"⟩]⟩,
           "stop"⟩], ⟨0, 0, 0⟩⟩).message.content =
      [Part.text "hi", Part.toolRequest "bar" (some (.obj []))] ∧
    ∃ e, generateTextStream parseDemo none
        ⟨[⟨[⟨"", [⟨0, "id0", ⟨"foo", "oops"⟩⟩]⟩]⟩], none⟩ = .error e := by
  constructor
  · rw [c1_decode_failure_asymmetry.1 parseDemo
        ⟨[⟨⟨"hi", [⟨"call_foo", "foo", "oops"⟩, ⟨"call_bar", "bar", "\x7b\x7d"⟩]⟩,
           "stop"⟩], ⟨0, 0, 0⟩⟩
        ⟨⟨"hi", [⟨"call_foo", "foo", "oops"⟩, ⟨"call_bar", "bar", "\x7b\x7d"⟩]⟩,
          "stop"⟩ [] rfl]
    rfl
  · exact c1_decode_failure_asymmetry.2 parseDemo none
      ⟨[⟨[⟨"", [⟨0, "id0", ⟨"foo", "oops"⟩⟩]⟩]⟩], none⟩
      "" [(0, ⟨"id0", "foo", "oops"⟩)] 0 ⟨"id0", "foo", "oops"⟩
      rfl rfl (List.mem_singleton.mpr rfl) (by decide) (by decide) rfl

theorem runDeltas_cons (cb : Option (ModelResponseChunk → Option String))
    (c : StreamChunk) (rest : List StreamChunk) (text : String)
    (m : List (Int × ToolCallAccumulator)) :
    runDeltas cb (c :: rest) text m =
      match c.choices with
      | [] => runDeltas cb rest text m
      | d :: _ =>
        match processDelta cb d text m with
        | .error e => .error e
        | .ok (t, m2) => runDeltas cb rest t m2 := rfl

theorem runDeltas_append_ok (cb : Option (ModelResponseChunk → Option String))
    (l1 l2 : List StreamChunk) (text : String)
    (m : List (Int × ToolCallAccumulator)) (t : String)
    (m2 : List (Int × ToolCallAccumulator))
    (h : runDeltas cb l1 text m = .ok (t, m2)) :
    runDeltas cb (l1 ++ l2) text m = runDeltas cb l2 t m2 := by
  induction l1 generalizing text m with
  | nil =>
    unfold runDeltas at h
    cases h
    rfl
  | cons c rest ih =>
    rw [List.cons_append]
    rw [runDeltas_cons] at h
    rw [runDeltas_cons]
    cases hc : c.choices with
    | nil =>
      simp only [hc] at h ⊢
      exact ih _ _ h
    | cons d ds =>
      simp only [hc] at h ⊢
      cases hp : processDelta cb d text m with
      | error e =>
        simp only [hp] at h
        exact absurd h (by simp)
      | ok tm =>
        obtain ⟨t1, m1⟩ := tm
        simp only [hp] at h ⊢
        exact ih _ _ h

/-- C3: if the sink returns an error on some text chunk, the streaming
call returns the wrapped streaming-callback error and no ModelResponse,
and nothing after the failing delta matters: the result is the same for
every choice of remaining chunks and even for every terminal transport
error, because consumption stops on the spot. -/
theorem c3_sink_failure_aborts (parse : String → Option JsonValue)
    (cb : ModelResponseChunk → Option String)
    (pre post : List StreamChunk) (c : StreamChunk)
    (d : StreamDelta) (ds : List StreamDelta) (err : Option String)
    (text : String) (m : List (Int × ToolCallAccumulator)) (e : String)
    (hpre : runDeltas (some cb) pre "" [] = .ok (text, m))
    (hc : c.choices = d :: ds)
    (hd : d.content ≠ "")
    (hcb : cb ⟨[Part.text d.content]⟩ = some e) :
    generateTextStream parse (some cb) ⟨pre ++ c :: post, err⟩ =
      .error (.streamingCallback e) := by
  have h1 : runDeltas (some cb) (pre ++ c :: post) "" [] =
      .error (.streamingCallback e) := by
    rw [runDeltas_append_ok (some cb) pre (c :: post) "" [] text m hpre]
    unfold runDeltas
    rw [hc]
    unfold processDelta
    simp [hd, hcb]
  unfold generateTextStream
  rw [h1]

/-- Witness for C3: a sink that fails on every chunk aborts a stream on
its first text delta, with a further chunk and a pending transport error
left unconsumed. -/
theorem c3_sink_failure_aborts_witness :
    generateTextStream parseDemo (some (fun _ => some "boom"))
        ⟨[] ++ ⟨[⟨"hi", []⟩]⟩ :: [⟨[⟨"more", []⟩]⟩], some "transport down"⟩ =
      .error (.streamingCallback "boom") :=
  c3_sink_failure_aborts parseDemo (fun _ => some "boom")
    [] [⟨[⟨"more", []⟩]⟩] ⟨[⟨"hi", []⟩]⟩ ⟨"hi", []⟩ []
    (some "transport down") "" [] "boom" rfl rfl (by decide) rfl

/-- C7 counterexample: a tool-role message whose only part is a Text part
is a message with a non-empty part sequence, yet the translator emits
zero wire messages for it (the tool branch only emits ToolResponse
parts), so the output length can differ from the count of non-empty
messages. -/
theorem c7_length_counterexample :
    (convertMessagesToOpenAI (fun _ => none) [⟨.tool, [Part.text "x"]⟩]).length = 0 ∧
    countNonEmptyMessages [⟨.tool, [Part.text "x"]⟩] = 1 :=
  ⟨rfl, rfl⟩

/-- C7 (amended): for every sequence of messages all of whose parts are
Text parts and none of whose roles is tool, the translator produces
exactly as many wire messages as there are messages with a non-empty
part sequence. -/
theorem c7_text_only_length (marshal : Option JsonValue → Option String)
    (msgs : List Message)
    (h : ∀ msg ∈ msgs, msg.role ≠ .tool ∧ ∀ p ∈ msg.content, p.isTextPart = true) :
    (convertMessagesToOpenAI marshal msgs).length = countNonEmptyMessages msgs := by
  induction msgs with
  | nil => rfl
  | cons msg rest ih =>
    have hmsg := h msg (List.mem_cons_self _ _)
    have hrest := ih (fun m hm => h m (List.mem_cons_of_mem _ hm))
    have hsplit : (convertMessagesToOpenAI marshal (msg :: rest)).length =
        (convertMessage marshal msg).length +
          (convertMessagesToOpenAI marshal rest).length := by
      rw [show convertMessagesToOpenAI marshal (msg :: rest) =
            convertMessage marshal msg ++ convertMessagesToOpenAI marshal rest from rfl,
          List.length_append]
    rw [hsplit, hrest]
    obtain ⟨role, content⟩ := msg
    cases content with
    | nil => simp [convertMessage, countNonEmptyMessages]
    | cons p ps =>
      have hone : (convertMessage marshal ⟨role, p :: ps⟩).length = 1 := by
        cases role with
        | system => rfl
        | user => rfl
        | model => rfl
        | tool => exact absurd rfl hmsg.1
      rw [hone]
      simp [countNonEmptyMessages]

/-- Witness for C7 (amended) on a three-message text-only sequence with
one empty message: two wire messages for two non-empty messages. -/
theorem c7_text_only_length_witness :
    (convertMessagesToOpenAI (fun _ => none)
        [⟨.user, [Part.text "hi"]⟩, ⟨.system, []⟩, ⟨.model, [Part.text "ok"]⟩]).length =
      countNonEmptyMessages
        [⟨.user, [Part.text "hi"]⟩, ⟨.system, []⟩, ⟨.model, [Part.text "ok"]⟩] :=
  c7_text_only_length (fun _ => none) _ (by
    intro msg hm
    simp only [List.mem_cons, List.not_mem_nil, or_false] at hm
    rcases hm with rfl | rfl | rfl
    · refine ⟨by decide, ?_⟩
      intro p hp
      simp only [List.mem_cons, List.not_mem_nil, or_false] at hp
      subst hp
      rfl
    · exact ⟨by decide, fun p hp => absurd hp (List.not_mem_nil p)⟩
    · refine ⟨by decide, ?_⟩
      intro p hp
      simp only [List.mem_cons, List.not_mem_nil, or_false] at hp
      subst hp
      rfl)

/-- C8 counterexample: a user message whose first part is a ToolRequest
part and whose second part is the Text part "hi" is translated to a wire
message with content "" (the Text field of the first part), not "hi"
(the content of the first Text part). -/
theorem c8_first_text_counterexample :
    convertMessagesToOpenAI (fun _ => none)
        [⟨.user, [Part.toolRequest "t" none, Part.text "hi"]⟩] =
      [.user ""] ∧
    specFirstTextContent [Part.toolRequest "t" none, Part.text "hi"] = "hi" ∧
    ("" : String) ≠ "hi" :=
  ⟨rfl, rfl, by decide⟩

/-- C8 (amended): for every system-role or user-role message with a
non-empty part sequence, the translator emits exactly one wire message
whose content is the Text field of the message's first part, even when
the message has multiple parts; when that first part is a Text part this
Text field is exactly the content of the message's first Text part.  The
last conjunct records that convertMessage is the per-message emission of
the translator. -/
theorem c8_first_part_text_field (marshal : Option JsonValue → Option String)
    (msg : Message) (p : Part) (ps : List Part) (rest : List Message)
    (hc : msg.content = p :: ps) :
    (msg.role = .system → convertMessage marshal msg = [.system p.textField]) ∧
    (msg.role = .user → convertMessage marshal msg = [.user p.textField]) ∧
    (p.isTextPart = true → p.textField = specFirstTextContent msg.content) ∧
    convertMessagesToOpenAI marshal (msg :: rest) =
      convertMessage marshal msg ++ convertMessagesToOpenAI marshal rest := by
  obtain ⟨role, content⟩ := msg
  simp only at hc
  subst hc
  refine ⟨?_, ?_, ?_, rfl⟩
  · intro hrole
    cases role with
    | system => rfl
    | user => exact absurd hrole (by simp)
    | model => exact absurd hrole (by simp)
    | tool => exact absurd hrole (by simp)
  · intro hrole
    cases role with
    | system => exact absurd hrole (by simp)
    | user => rfl
    | model => exact absurd hrole (by simp)
    | tool => exact absurd hrole (by simp)
  · intro ht
    cases p with
    | text t => rfl
    | media ct url => exact absurd ht (by simp [Part.isTextPart])
    | toolRequest n i => exact absurd ht (by simp [Part.isTextPart])
    | toolResponse n o => exact absurd ht (by simp [Part.isTextPart])

/-- Witness for C8 (amended): a two-text-part user message is emitted as
one wire message carrying the first text part's content, and a one-part
system message likewise. -/
theorem c8_first_part_text_field_witness :
    convertMessage (fun _ => none) ⟨.user, [Part.text "hello", Part.text "world"]⟩ =
      [.user "hello"] ∧
    convertMessage (fun _ => none) ⟨.system, [Part.text "sys"]⟩ = [.system "sys"] :=
  ⟨(c8_first_part_text_field (fun _ => none)
      ⟨.user, [Part.text "hello", Part.text "world"]⟩
      (Part.text "hello") [Part.text "world"] [] rfl).2.1 rfl,
   (c8_first_part_text_field (fun _ => none) ⟨.system, [Part.text "sys"]⟩
      (Part.text "sys") [] [] rfl).1 rfl⟩

end AzureAIFoundry
